import Mathlib

/-!
Verification of the RemoteFlow job-import worker
(`worker/modal_import_worker.py`), a job-listing ingestion pipeline.

This file gives a shallow embedding of the worker's pure core — salary and
date parsing, model-response JSON extraction, job normalization, the
deduplicating writer, the extraction-engine result shaping, and the
per-session orchestration loop — and proves or refutes the specified
properties about it.

Modelling conventions:
* Python strings are `List Char`; Python's `str.replace`, slicing, `in`,
  `.lower()` and the regular expressions used by the worker are embedded as
  executable functions on `List Char`.
* Python values flowing through untyped dicts (raw jobs, parsed model JSON)
  are a `Json` inductive; dict access, truthiness, attribute errors on
  wrong-typed values are modelled explicitly, and functions that can raise
  return `Except String`.
* `json.loads` is modelled by a total recursive-descent parser over the
  value grammar actually exercised here (objects, arrays, strings with the
  standard escapes, integer numbers; non-integer numeric literals are kept
  as their literal text).
* The wall clock is an `Int` parameter (seconds); `timedelta` arithmetic is
  integer arithmetic on it. Database effects (Supabase) are modelled as
  explicit state: the jobs table is the list of inserted dedup keys, and
  insert failures come from an explicit oracle.
-/

namespace RemoteFlow

/-! ### Character-list string utilities -/

/-- Whitespace as matched by the worker's regexes (`\s`) and by `.strip()`. -/
def isWsc (c : Char) : Bool :=
  c = ' ' || c = '\t' || c = '\n' || c = '\r' || c = '\x0b' || c = '\x0c'

/-- `startsWith s p`: `s` begins with pattern `p`. -/
def startsWith : List Char → List Char → Bool
  | _, [] => true
  | [], _ :: _ => false
  | c :: cs, p :: ps => c = p && startsWith cs ps

/-- Index of the first occurrence of pattern `p` in `s` (`str.find`). -/
def findSub : List Char → List Char → Option Nat
  | s, p =>
    if startsWith s p then some 0
    else match s with
      | [] => none
      | _ :: cs => (findSub cs p).map (· + 1)

/-- Python's `p in s` substring test. -/
def containsSub (s p : List Char) : Bool :=
  (findSub s p).isSome

/-- Recursion core of `replaceAll`, structural on a fuel counter so the
kernel can evaluate it; every step consumes at least one character, so fuel
equal to the string length never runs out. -/
def replaceAllF (pat repl : List Char) : Nat → List Char → List Char
  | 0, s => s
  | _ + 1, [] => []
  | fuel + 1, c :: rest =>
    if pat ≠ [] && startsWith (c :: rest) pat then
      repl ++ replaceAllF pat repl fuel (List.drop (pat.length - 1) rest)
    else
      c :: replaceAllF pat repl fuel rest

/-- Python's `str.replace(pat, repl)`: every non-overlapping occurrence,
scanning left to right.  An empty pattern leaves the string unchanged (the
worker never replaces an empty pattern). -/
def replaceAll (pat repl s : List Char) : List Char :=
  replaceAllF pat repl s.length s

/-- ASCII lowercasing, the fragment of `str.lower()` the worker relies on
(code points 65-90 shift by 32). -/
def lowerc (c : Char) : Char :=
  if 65 ≤ c.toNat && c.toNat ≤ 90 then Char.ofNat (c.toNat + 32) else c

/-- Python `str.lower()` (ASCII fragment). -/
def toLowerL (s : List Char) : List Char :=
  s.map lowerc

/-- Strip leading whitespace. -/
def dropWsLeft : List Char → List Char
  | [] => []
  | c :: cs => if isWsc c then dropWsLeft cs else c :: cs

/-- Strip whitespace from both ends (the `\s*` trimming around the fenced
code-block capture group). -/
def stripWs (s : List Char) : List Char :=
  (dropWsLeft ((dropWsLeft s.reverse).reverse))

/-- `" ".join`-style joining with a separator. -/
def joinWith (sep : List Char) : List (List Char) → List Char
  | [] => []
  | [x] => x
  | x :: y :: rest => x ++ sep ++ joinWith sep (y :: rest)

/-- Numeric value of a digit run (the integer part of `int(float(tok))` for
the nonnegative tokens the salary scanner produces). -/
def natOfDigits (ds : List Char) : Nat :=
  ds.foldl (fun acc c => acc * 10 + (c.toNat - '0'.toNat)) 0

/-- Maximal leading digit run and the remainder. -/
def takeDigits : List Char → List Char × List Char
  | [] => ([], [])
  | c :: cs =>
    if c.isDigit then
      let (ds, r) := takeDigits cs
      (c :: ds, r)
    else ([], c :: cs)

/-- Recursion core of `findNumbers`, structural on fuel (each step consumes
at least the character at the scan head, so fuel = length suffices). -/
def findNumbersF : Nat → List Char → List (List Char × List Char)
  | 0, _ => []
  | _ + 1, [] => []
  | fuel + 1, c :: rest =>
    if c.isDigit then
      let p1 := takeDigits (c :: rest)
      match p1.2 with
      | dot :: r2 =>
        if dot = '.' && (match r2 with | d :: _ => d.isDigit | [] => false) then
          (p1.1, (takeDigits r2).1) :: findNumbersF fuel (takeDigits r2).2
        else
          (p1.1, []) :: findNumbersF fuel p1.2
      | [] => [(p1.1, [])]
    else findNumbersF fuel rest

/-- All matches of `re.findall(r"(\d+(?:\.\d+)?)", s)`, left to right, as
(integer part, fractional part): a maximal digit run, optionally followed by
a dot that is itself followed by a digit and the subsequent digit run. -/
def findNumbers (s : List Char) : List (List Char × List Char) :=
  findNumbersF s.length s

/-! ### Salary parsing (`parse_salary`, lines 630-658)

The scanner embeds `re.findall(r"(\d+(?:\.\d+)?)", s)`: each token is a
maximal digit run, optionally followed by a dot and a further digit run.
`int(float(tok))` truncates toward zero, i.e. keeps the integer part; the
embedding evaluates the token to the natural number of its integer part
(exact for the magnitudes a salary string carries). -/

/-- `int(float(tok))` for a nonnegative token: the integer part's value. -/
def tokenValue (t : List Char × List Char) : Nat :=
  natOfDigits t.1

/-- The cleanup pipeline at the head of `parse_salary`: strip `$`, `,`,
`/year`, `/yr`, then expand `k`/`K` to `000`, in the source's order. -/
def cleanSalary (s : List Char) : List Char :=
  replaceAll [ 'K'] ('0' :: '0' :: '0' :: [])
    (replaceAll [ 'k'] ('0' :: '0' :: '0' :: [])
      (replaceAll ('/' :: 'y' :: 'r' :: []) []
        (replaceAll ('/' :: 'y' :: 'e' :: 'a' :: 'r' :: []) []
          (replaceAll [ ','] []
            (replaceAll [ '$'] [] s)))))

/-- `parse_salary` (lines 630-658): extract numbers from the cleaned string;
two or more numbers give (first, second), one number gives (v, v), scaled by
2080 when the first (resp. sole) value is below 500; otherwise (none, none).
The `ValueError` guard of the source is unreachable in this model because
every scanned token is a valid numeral. -/
def parse_salary (s : List Char) : Option Nat × Option Nat :=
  if s = [] then (none, none)
  else
    match findNumbers (cleanSalary s) with
    | n1 :: n2 :: _ =>
      let minVal := tokenValue n1
      let maxVal := tokenValue n2
      if minVal < 500 then (some (minVal * 2080), some (maxVal * 2080))
      else (some minVal, some maxVal)
    | [n1] =>
      let v := tokenValue n1
      if v < 500 then (some (v * 2080), some (v * 2080))
      else (some v, some v)
    | [] => (none, none)

/-! ### JSON values and `json.loads`

Python values flowing through the worker's untyped dicts.  Integer numeric
literals are exact; a numeric literal with a fraction or exponent is kept as
its literal text (`numf`) — the worker's claims never depend on float
values.  `json.loads` is embedded as a fuel-indexed recursive-descent parser
over this grammar that must consume the whole input (Python raises
`JSONDecodeError` on trailing data). -/

inductive Json where
  | null
  | bool (b : Bool)
  | num (n : Int)
  | numf (lit : List Char)
  | str (s : List Char)
  | arr (elems : List Json)
  | obj (members : List (List Char × Json))

/-- Dict lookup (`d.get(k)`): first binding wins, as for Python dict keys,
which are unique. -/
def jlookup (j : Json) (k : List Char) : Option Json :=
  match j with
  | .obj ms => ms.lookup k
  | _ => none

/-- Python truthiness of a JSON-shaped value. -/
def pyFalsy (j : Json) : Bool :=
  match j with
  | .null => true
  | .bool b => !b
  | .num n => n = 0
  | .numf _ => false
  | .str s => s.isEmpty
  | .arr xs => xs.isEmpty
  | .obj ms => ms.isEmpty

/-- Hex digit value, for `\uXXXX` escapes (code points 0-9, a-f, A-F). -/
def hexVal (c : Char) : Option Nat :=
  let n := c.toNat
  if 48 ≤ n && n ≤ 57 then some (n - 48)
  else if 97 ≤ n && n ≤ 102 then some (n - 87)
  else if 65 ≤ n && n ≤ 70 then some (n - 55)
  else none

/-- JSON string body after the opening quote: plain characters and the
standard escapes, up to the closing quote. -/
def parseJStr : Nat → List Char → Option (List Char × List Char)
  | 0, _ => none
  | _ + 1, [] => none
  | fuel + 1, c :: rest =>
    if c = '"' then some ([], rest)
    else if c = '\\' then
      match rest with
      | [] => none
      | e :: rest2 =>
        let dec : Option (Char × List Char) :=
          if e = '"' then some ('"', rest2)
          else if e = '\\' then some ('\\', rest2)
          else if e = '/' then some ('/', rest2)
          else if e = 'n' then some ('\n', rest2)
          else if e = 't' then some ('\t', rest2)
          else if e = 'r' then some ('\r', rest2)
          else if e = 'b' then some ('\x08', rest2)
          else if e = 'f' then some ('\x0c', rest2)
          else if e = 'u' then
            match rest2 with
            | h1 :: h2 :: h3 :: h4 :: rest3 =>
              match hexVal h1, hexVal h2, hexVal h3, hexVal h4 with
              | some a, some b, some c2, some d =>
                some (Char.ofNat (((a * 16 + b) * 16 + c2) * 16 + d), rest3)
              | _, _, _, _ => none
            | _ => none
          else none
        match dec with
        | some (ch, r) =>
          match parseJStr fuel r with
          | some (s, r2) => some (ch :: s, r2)
          | none => none
        | none => none
    else
      match parseJStr fuel rest with
      | some (s, r2) => some (c :: s, r2)
      | none => none

/-- Digit run without a leading-zero violation (`json` rejects `01`). -/
def validIntDigits (ds : List Char) : Bool :=
  match ds with
  | [] => false
  | ['0'] => true
  | '0' :: _ :: _ => false
  | _ => true

/-- Parse a JSON number starting at the current position: optional minus,
digits, optional fraction and exponent.  Pure integers become `num`; any
fraction/exponent keeps the literal text as `numf`. -/
def parseJNum (s : List Char) : Option (Json × List Char) :=
  let (neg, s1) := match s with
    | '-' :: r => (true, r)
    | _ => (false, s)
  let (ds, s2) := takeDigits s1
  if !validIntDigits ds then none
  else
    let (frac, s3) := match s2 with
      | '.' :: r =>
        let (fs, r2) := takeDigits r
        if fs = [] then (none, s2) else (some fs, r2)
      | _ => (none, s2)
    match frac with
    | none =>
      match s3 with
      | 'e' :: _ => none
      | 'E' :: _ => none
      | _ =>
        let v : Int := natOfDigits ds
        some (.num (if neg then -v else v), s3)
    | some fs =>
      match s3 with
      | 'e' :: _ => none
      | 'E' :: _ => none
      | _ =>
        some (.numf ((if neg then ['-'] else []) ++ ds ++ '.' :: fs), s3)

/-- Parsing mode: a single value, the members of an open object, or the
elements of an open array (with what has been accumulated so far).  One mode
parameter keeps the grammar's three mutually recursive productions in a
single fuel-structural function that the kernel can evaluate. -/
inductive PMode where
  | val
  | objMembers (acc : List (List Char × Json))
  | arrElems (acc : List Json)

/-- The recursive-descent core: in `.val` mode, one JSON value at the
current position; in `.objMembers`/`.arrElems` mode, the remaining members
or elements of an open object or array together with the closing bracket.
Returns the parsed value and the unconsumed remainder. -/
def parseJ : Nat → PMode → List Char → Option (Json × List Char)
  | 0, _, _ => none
  | fuel + 1, .val, s =>
    match s with
    | [] => none
    | c :: rest =>
      if c = '"' then
        match parseJStr (rest.length + 1) rest with
        | some (str, r) => some (.str str, r)
        | none => none
      else if c = '{' then
        match dropWsLeft rest with
        | '}' :: r => some (.obj [], r)
        | s2 => parseJ fuel (.objMembers []) s2
      else if c = '[' then
        match dropWsLeft rest with
        | ']' :: r => some (.arr [], r)
        | s2 => parseJ fuel (.arrElems []) s2
      else if startsWith s ('t' :: 'r' :: 'u' :: 'e' :: []) then
        some (.bool true, s.drop 4)
      else if startsWith s ('f' :: 'a' :: 'l' :: 's' :: 'e' :: []) then
        some (.bool false, s.drop 5)
      else if startsWith s ('n' :: 'u' :: 'l' :: 'l' :: []) then
        some (.null, s.drop 4)
      else
        parseJNum s
  | fuel + 1, .objMembers acc, s =>
    match s with
    | '"' :: rest =>
      match parseJStr (rest.length + 1) rest with
      | some (key, r1) =>
        match dropWsLeft r1 with
        | ':' :: r2 =>
          match parseJ fuel .val (dropWsLeft r2) with
          | some (v, r3) =>
            match dropWsLeft r3 with
            | ',' :: r4 => parseJ fuel (.objMembers (acc ++ [(key, v)])) (dropWsLeft r4)
            | '}' :: r4 => some (.obj (acc ++ [(key, v)]), r4)
            | _ => none
          | none => none
        | _ => none
      | none => none
    | _ => none
  | fuel + 1, .arrElems acc, s =>
    match parseJ fuel .val s with
    | some (v, r1) =>
      match dropWsLeft r1 with
      | ',' :: r2 => parseJ fuel (.arrElems (acc ++ [v])) (dropWsLeft r2)
      | ']' :: r2 => some (.arr (acc ++ [v]), r2)
      | _ => none
    | none => none

/-- `json.loads`: parse one value and require only whitespace to remain
("Extra data" otherwise). -/
def jsonLoads (s : List Char) : Option Json :=
  match parseJ (s.length + 1) .val (dropWsLeft s) with
  | some (j, rest) => if (dropWsLeft rest).isEmpty then some j else none
  | none => none

/-! ### Model-response parsing (`parse_claude_response`, lines 567-585) -/

/-- The capture of `re.search(r"```json\s*([\s\S]*?)\s*```", text)`: the
text between the first occurrence of "```json" and the first "```" after
it, stripped of surrounding whitespace (the greedy `\s*` before the lazy
group and the backtracking `\s*` after it trim exactly that whitespace; a
later "```json" cannot begin a match when the first lacks a closing fence,
since any later occurrence would itself close the first). -/
def extractFenced (text : List Char) : Option (List Char) :=
  match findSub text ('`' :: '`' :: '`' :: 'j' :: 's' :: 'o' :: 'n' :: []) with
  | none => none
  | some i =>
    let rest := text.drop (i + 7)
    match findSub rest ('`' :: '`' :: '`' :: []) with
    | none => none
    | some c => some (stripWs (rest.take c))

/-- The match of `re.search(r"\{[\s\S]*\}", text)`: greedy, so it spans from
the first opening brace to the last closing brace of the whole text (when
the last closing brace comes after the first opening brace). -/
def braceSpan (text : List Char) : Option (List Char) :=
  match findSub text ['\x7b'] with
  | none => none
  | some i =>
    match findSub text.reverse ['\x7d'] with
    | none => none
    | some rj =>
      let j := text.length - 1 - rj
      if i < j then some ((text.drop i).take (j - i + 1)) else none

/-- The fallback object `{"jobs": [], "error": "Failed to parse response"}`. -/
def failedParseObj : Json :=
  .obj [("jobs".data, .arr []), ("error".data, .str "Failed to parse response".data)]

/-- `parse_claude_response` (lines 567-585): try the fenced ```json block,
then the greedy brace span of the raw text, then the fallback object.  A
found-but-unparseable candidate falls through to the next stage, exactly as
the source's `except json.JSONDecodeError: pass` does. -/
def parse_claude_response (text : List Char) : Json :=
  match (extractFenced text).bind jsonLoads with
  | some j => j
  | none =>
    match (braceSpan text).bind jsonLoads with
    | some j => j
    | none => failedParseObj

/-- The spec's reading of stage (2): parse the *first* brace-delimited
substring found anywhere in the text — i.e. from the first opening brace to
the first closing brace after it.  Stated from the spec's words, to be
compared with `parse_claude_response`; it is not the source's behavior. -/
def braceFirstSpec (text : List Char) : Option (List Char) :=
  match findSub text ['\x7b'] with
  | none => none
  | some i =>
    let rest := text.drop i
    match findSub (rest.drop 1) ['\x7d'] with
    | none => none
    | some k => some (rest.take (k + 2))

/-- Modelled from the spec: `parseModelResponse` as §4.2 words it, with
stage (2) parsing the first brace-delimited substring. -/
def parse_claude_response_spec (text : List Char) : Json :=
  match (extractFenced text).bind jsonLoads with
  | some j => j
  | none =>
    match (braceFirstSpec text).bind jsonLoads with
    | some j => j
    | none => failedParseObj

/-! ### Posted-date parsing (`parse_posted_date`, lines 661-698)

The clock is an `Int` parameter (seconds since an arbitrary epoch); the
source's `isoformat` serialization of the resulting instant is elided. -/

/-- A time unit of the relative-date regex. -/
inductive DateUnit where
  | minute | hour | day | week | month
deriving DecidableEq

/-- Seconds per unit (`timedelta`; month approximated as 30 days as in the
source). -/
def unitSeconds : DateUnit → Int
  | .minute => 60
  | .hour => 3600
  | .day => 86400
  | .week => 604800
  | .month => 2592000

/-- Match `(day|week|hour|minute|month)s?\s*ago` at the head of `s`
(alternatives are mutually prefix-free, so order is immaterial). -/
def matchUnitAgo (s : List Char) : Option DateUnit :=
  let tryUnit : List Char → DateUnit → Option DateUnit := fun w u =>
    if startsWith s w then
      let rest := s.drop w.length
      let rest := match rest with
        | 's' :: r => r
        | r => r
      if startsWith (dropWsLeft rest) ('a' :: 'g' :: 'o' :: []) then some u else none
    else none
  match tryUnit ('d' :: 'a' :: 'y' :: []) .day with
  | some u => some u
  | none =>
  match tryUnit ('w' :: 'e' :: 'e' :: 'k' :: []) .week with
  | some u => some u
  | none =>
  match tryUnit ('h' :: 'o' :: 'u' :: 'r' :: []) .hour with
  | some u => some u
  | none =>
  match tryUnit ('m' :: 'i' :: 'n' :: 'u' :: 't' :: 'e' :: []) .minute with
  | some u => some u
  | none => tryUnit ('m' :: 'o' :: 'n' :: 't' :: 'h' :: []) .month

/-- Leftmost match of `re.search(r"(\d+)\s*(day|week|hour|minute|month)s?\s*ago", s)`:
scan for a digit, take the maximal run, skip whitespace, then a unit,
optional `s`, whitespace, `ago`.  (With a maximal digit run, backtracking
inside `\d+` can never succeed where this scan fails, since no alternative
begins with a digit.) -/
def findRelMatch : List Char → Option (Nat × DateUnit)
  | [] => none
  | c :: rest =>
    if c.isDigit then
      let p := takeDigits (c :: rest)
      match matchUnitAgo (dropWsLeft p.2) with
      | some u => some (natOfDigits p.1, u)
      | none => findRelMatch rest
    else findRelMatch rest

/-- `parse_posted_date` (lines 661-698): empty (falsy) input is absent;
otherwise lowercase, try the relative pattern, then the "today"/"just
posted" and "yesterday" substring checks, else absent.  The source's final
`else: return None` inside the unit dispatch is unreachable (the regex only
produces the five units) and is elided. -/
def parse_posted_date (now : Int) (s : List Char) : Option Int :=
  if s = [] then none
  else
    let ls := toLowerL s
    match findRelMatch ls with
    | some (n, u) => some (now - n * unitSeconds u)
    | none =>
      if containsSub ls "today".data || containsSub ls "just posted".data then some now
      else if containsSub ls "yesterday".data then some (now - 86400)
      else none

/-! ### Normalization (`normalize_job`, lines 593-627)

A raw job is a Python dict with arbitrary JSON-shaped values.  Operations
the source applies to a field (`.lower()`, `.replace()`, slicing, the regex
scans) raise on values of the wrong type; the embedding models them in
`Except String` with the Python exception class as the message.  Slicing is
modelled for strings (the persisted columns are text; Python would also
slice list values — the theorems below only quantify over string-valued
fields, where both agree). -/

/-- A raw job dict: field name to JSON-shaped value, keys unique. -/
abbrev RawJob : Type := List (List Char × Json)

/-- `job.get(k, dflt)`. -/
def rawGet (job : RawJob) (k : List Char) (dflt : Json) : Json :=
  match List.lookup k job with
  | some v => v
  | none => dflt

/-- A string-only coercion: `.lower()`/`.replace()` on a non-string raises
`AttributeError`. -/
def pyStrOf (j : Json) : Except String (List Char) :=
  match j with
  | .str s => .ok s
  | _ => .error "AttributeError"

/-- Python slicing `v[:n]` for the string values the pipeline persists;
non-strings raise `TypeError`. -/
def pySliceStr (j : Json) (n : Nat) : Except String (List Char) :=
  match j with
  | .str s => .ok (s.take n)
  | _ => .error "TypeError"

/-- `parse_salary` applied to a dict value: a falsy value returns
`(None, None)` at the guard; a truthy non-string raises at `.replace`. -/
def parse_salary_j (j : Json) : Except String (Option Nat × Option Nat) :=
  if pyFalsy j then .ok (none, none)
  else match j with
    | .str s => .ok (parse_salary s)
    | _ => .error "AttributeError"

/-- `parse_posted_date` applied to a dict value, with the same guard. -/
def parse_posted_date_j (now : Int) (j : Json) : Except String (Option Int) :=
  if pyFalsy j then .ok none
  else match j with
    | .str s => .ok (parse_posted_date now s)
    | _ => .error "AttributeError"

/-- First-match association lookup on string keys. -/
def lookupStr (m : List (List Char × List Char)) (k : List Char) : Option (List Char) :=
  match m with
  | [] => none
  | (k2, v) :: rest => if k2 = k then some v else lookupStr rest k

/-- The `job_type_map` table (lines 597-604). -/
def job_type_map : List (List Char × List Char) :=
  [("full_time".data, "full_time".data),
   ("full-time".data, "full_time".data),
   ("part_time".data, "part_time".data),
   ("part-time".data, "part_time".data),
   ("contract".data, "contract".data),
   ("freelance".data, "freelance".data)]

/-- The canonical record `normalize_job` builds for insertion. -/
structure NormalizedJob where
  title : List Char
  company : List Char
  description : Json
  salary_min : Option Nat
  salary_max : Option Nat
  currency : List Char
  job_type : List Char
  timezone : Option (List Char)
  tech_stack : List Json
  experience_level : List Char
  url : List Char
  source : List Char
  posted_date : Option Int
  fetched_at : Int
  is_active : Bool

/-- `normalize_job` (lines 593-627), with effects in the source's order:
salary parse, employment-type mapping, timezone inference from location,
then the record fields (title/company/url truncation, posted-date parse).
`session_id` is accepted and unused, as in the source. -/
def normalize_job (now : Int) (job : RawJob) (source session_id : List Char) :
    Except String NormalizedJob := do
  let sal ← parse_salary_j (rawGet job "salary".data (.str []))
  let empStr ← pyStrOf (rawGet job "employment_type".data (.str "full_time".data))
  let emp_type := replaceAll [ ' '] [ '_'] (toLowerL empStr)
  let jobType := (lookupStr job_type_map emp_type).getD "full_time".data
  let locStr ← pyStrOf (rawGet job "location".data (.str "Remote".data))
  let tzv := if containsSub (toLowerL locStr) "remote".data then some "global".data else none
  let title ← pySliceStr (rawGet job "title".data (.str [])) 500
  let company ← pySliceStr (rawGet job "company".data (.str [])) 255
  let descr := rawGet job "description_preview".data (rawGet job "description".data (.str []))
  let url ← pySliceStr (rawGet job "url".data (.str [])) 2000
  let pd ← parse_posted_date_j now (rawGet job "posted_date".data (.str []))
  pure { title := title, company := company, description := descr,
         salary_min := sal.1, salary_max := sal.2,
         currency := "USD".data, job_type := jobType, timezone := tzv,
         tech_stack := [], experience_level := "any".data, url := url,
         source := source, posted_date := pd, fetched_at := now,
         is_active := true }

/-! ### Deduplicating writer (`save_jobs_to_database`, lines 701-739)

The jobs table is modelled by the dedup-relevant projection of its rows
(url, title, company — text columns).  The two existence queries read this
state; a successful insert appends to it; an insert failure comes from an
oracle and is logged-and-skipped by the source's `except` around the insert
alone.  The dedup queries and `normalize_job` sit outside that `except`, so
an exception there propagates — hence the `Except` result. -/

/-- One persisted row's dedup-relevant columns. -/
structure Row where
  url : List Char
  title : List Char
  company : List Char
deriving DecidableEq

/-- `save_jobs_to_database` (lines 701-739), recursing down the batch with
the table state and both counters threaded through. -/
def save_jobs_to_database (now : Int) (insFails : NormalizedJob → Bool)
    (session_id source : List Char) :
    List RawJob → List Row → Nat → Nat → Except String (Nat × Nat × List Row)
  | [], db, imported, duplicates => .ok (imported, duplicates, db)
  | job :: rest, db, imported, duplicates =>
    match normalize_job now job source session_id with
    | .error e => .error e
    | .ok n =>
      if n.url.isEmpty || n.title.isEmpty then
        save_jobs_to_database now insFails session_id source rest db imported duplicates
      else if db.any (fun r => r.url = n.url) then
        save_jobs_to_database now insFails session_id source rest db imported (duplicates + 1)
      else if db.any (fun r => r.title = n.title ∧ r.company = n.company) then
        save_jobs_to_database now insFails session_id source rest db imported (duplicates + 1)
      else if insFails n then
        save_jobs_to_database now insFails session_id source rest db imported duplicates
      else
        save_jobs_to_database now insFails session_id source rest
          (db ++ [{ url := n.url, title := n.title, company := n.company }])
          (imported + 1) duplicates

/-! ### Search URL builders (lines 145-223) -/

/-- Characters `urllib.parse.quote_plus` never encodes: ASCII letters,
digits, and `_.-~`. -/
def urlSafe (c : Char) : Bool :=
  let n := c.toNat
  (97 ≤ n && n ≤ 122) || (65 ≤ n && n ≤ 90) || c.isDigit ||
    c = '_' || c = '.' || c = '-' || c = '~'

/-- UTF-8 bytes of one character. -/
def utf8Bytes (c : Char) : List Nat :=
  let n := c.toNat
  if n < 0x80 then [n]
  else if n < 0x800 then
    [0xC0 ||| (n >>> 6), 0x80 ||| (n &&& 0x3F)]
  else if n < 0x10000 then
    [0xE0 ||| (n >>> 12), 0x80 ||| ((n >>> 6) &&& 0x3F), 0x80 ||| (n &&& 0x3F)]
  else
    [0xF0 ||| (n >>> 18), 0x80 ||| ((n >>> 12) &&& 0x3F),
     0x80 ||| ((n >>> 6) &&& 0x3F), 0x80 ||| (n &&& 0x3F)]

/-- Uppercase hex digit (code point 48 + n below ten, 55 + n above). -/
def hexDigitU (n : Nat) : Char :=
  Char.ofNat (if n < 10 then 48 + n else 55 + n)

/-- `urllib.parse.quote_plus`: safe characters kept, space becomes `+`,
everything else percent-encoded per UTF-8 byte. -/
def quote_plus (s : List Char) : List Char :=
  (s.map fun c =>
    if urlSafe c then [c]
    else if c = ' ' then [ '+']
    else (utf8Bytes c).map (fun b => '%' :: hexDigitU (b / 16) :: hexDigitU (b % 16) :: []) |>.flatten).flatten

/-- `urllib.parse.urlencode` over an insertion-ordered parameter list. -/
def urlencode (params : List (List Char × List Char)) : List Char :=
  joinWith [ '&'] (params.map fun p => quote_plus p.1 ++ '=' :: quote_plus p.2)

/-- `build_linkedin_url` (lines 145-154). -/
def build_linkedin_url (roles : List (List Char)) (location : List Char) (remote : Bool) :
    List Char :=
  "https://www.linkedin.com/jobs/search/?".data ++ urlencode
    ([("keywords".data, joinWith [ ' '] roles),
      ("location".data, location),
      ("f_TPR".data, "r604800".data)] ++
     if remote then [("f_WT".data, "2".data)] else [])

/-- `build_indeed_url` (lines 157-166). -/
def build_indeed_url (roles : List (List Char)) (location : List Char) (remote : Bool) :
    List Char :=
  "https://www.indeed.com/jobs?".data ++ urlencode
    ([("q".data, joinWith [ ' '] roles),
      ("l".data, if remote then "Remote".data else location),
      ("fromage".data, "7".data)] ++
     if remote then [("sc".data, "0kf:attr(DSQF7);".data)] else [])

/-- `build_glassdoor_url` (lines 169-178). -/
def build_glassdoor_url (roles : List (List Char)) (remote : Bool) : List Char :=
  "https://www.glassdoor.com/Job/jobs.htm?".data ++ urlencode
    ([("sc.keyword".data, joinWith [ ' '] roles),
      ("locT".data, "N".data),
      ("locId".data, "1".data)] ++
     if remote then [("remoteWorkType".data, "1".data)] else [])

/-- `build_dice_url` (lines 181-189). -/
def build_dice_url (roles : List (List Char)) (location : List Char) (remote : Bool) :
    List Char :=
  "https://www.dice.com/jobs?".data ++ urlencode
    ([("q".data, joinWith [ ' '] roles),
      ("location".data, if remote then "Remote".data else location)] ++
     if remote then [("filters.isRemote".data, "true".data)] else [])

/-- The `WELLFOUND_ROLE_SLUGS` table (lines 124-137), in insertion order. -/
def WELLFOUND_ROLE_SLUGS : List (List Char × List Char) :=
  [("software engineer".data, "software-engineer".data),
   ("frontend developer".data, "frontend-developer".data),
   ("backend developer".data, "backend-developer".data),
   ("full stack developer".data, "full-stack-developer".data),
   ("react developer".data, "react-developer".data),
   ("python developer".data, "python-developer".data),
   ("data scientist".data, "data-scientist".data),
   ("product manager".data, "product-manager".data),
   ("designer".data, "designer".data),
   ("devops engineer".data, "devops-engineer".data),
   ("developer".data, "developer".data),
   ("engineer".data, "engineer".data)]

/-- `build_wellfound_url` (lines 192-204): first slug whose keyword occurs
in the lowercased joined roles, defaulting to "developer". -/
def build_wellfound_url (roles : List (List Char)) (remote : Bool) : List Char :=
  let keywordsLower := toLowerL (joinWith [ ' '] roles)
  let slug :=
    match WELLFOUND_ROLE_SLUGS.find? (fun p => containsSub keywordsLower p.1) with
    | some p => p.2
    | none => "developer".data
  "https://wellfound.com/role/".data ++ slug ++
    (if remote then "?remote=true".data else [])

/-- The search parameters carried by a session: `roles` (absent modelled as
the empty list, the source's default) and an optional `location`. -/
structure SearchParams where
  roles : List (List Char)
  location : Option (List Char)

/-- `build_search_url` (lines 207-223): the remote flag compares
`location.lower()` against "remote" with default "remote" (so a missing
location means remote), while the location passed on defaults to "Remote";
an unknown site yields the empty string. -/
def build_search_url (site_id : List Char) (sp : SearchParams) : List Char :=
  let location := sp.location.getD "Remote".data
  let remote := toLowerL (sp.location.getD "remote".data) = "remote".data
  if site_id = "linkedin".data then build_linkedin_url sp.roles location remote
  else if site_id = "indeed".data then build_indeed_url sp.roles location remote
  else if site_id = "glassdoor".data then build_glassdoor_url sp.roles remote
  else if site_id = "dice".data then build_dice_url sp.roles location remote
  else if site_id = "wellfound".data then build_wellfound_url sp.roles remote
  else []

/-! ### Extraction engine result shaping
(`search_site_with_computer_use`, lines 315-507, and `fallback_extraction`,
lines 510-564)

The browser and the model are external; what the embedding keeps is every
exit path's result value.  One run is described by: an optional exception
escaping the browsing `try` block (navigation, screenshots, action
execution — all shaped identically by the `except`), the outcome of each
model call of the iteration loop, and the outcome of the fallback call. -/

/-- Outcome of one `anthropic_client.messages.create` call in the loop. -/
inductive ModelTurn where
  | apiError (msg : List Char)
  | toolUse
  | finalText (text : List Char)

/-- Outcome of `fallback_extraction`'s own model call. -/
inductive FallbackOutcome where
  | noKey
  | reply (text : List Char)
  | exn (msg : List Char)

/-- `fallback_extraction` (lines 510-564): no API key, a parsed reply, or a
caught model-call failure.  None of its returns carries `search_url`. -/
def fallback_extraction (fb : FallbackOutcome) : Json :=
  match fb with
  | .noKey => .obj [("jobs".data, .arr []), ("error".data, .str "No API key for fallback".data)]
  | .reply t => parse_claude_response t
  | .exn m =>
    .obj [("jobs".data, .arr []),
          ("error".data, .str ("Fallback failed: ".data ++ m))]

/-- Replace-or-append on an association list (`d[k] = v`). -/
def setAssoc (ms : List (List Char × Json)) (k : List Char) (v : Json) :
    List (List Char × Json) :=
  match ms with
  | [] => [(k, v)]
  | (k2, v2) :: rest =>
    if k2 = k then (k2, v) :: rest else (k2, v2) :: setAssoc rest k v

/-- Python dict assignment `j[k] = v`: raises `TypeError` unless `j` is a
dict. -/
def jsonSetKey (j : Json) (k : List Char) (v : Json) : Except String Json :=
  match j with
  | .obj ms => .ok (.obj (setAssoc ms k v))
  | _ => .error "TypeError"

/-- How the iteration loop (lines 416-494) ends. -/
inductive LoopOut where
  | fellBack (result : Json)
  | finished (result : Json)
  | exhausted

/-- The loop: up to `fuel` iterations; an API error returns the fallback's
result directly, a tool-use turn iterates, a plain text turn parses it and
breaks.  (The source's second stop condition, `stop_reason == "end_turn"
and not has_tool_use`, is unreachable: `has_tool_use` false already broke.) -/
def runLoop (turns : Nat → ModelTurn) (fb : FallbackOutcome) (iter : Nat) :
    Nat → LoopOut
  | 0 => .exhausted
  | fuel + 1 =>
    match turns iter with
    | .apiError _ => .fellBack (fallback_extraction fb)
    | .toolUse => runLoop turns fb (iter + 1) fuel
    | .finalText t => .finished (parse_claude_response t)

/-- `search_site_with_computer_use` (lines 315-507).  An unknown site
returns before any browsing, without `search_url`; an exception escaping the
`try` is caught and shaped with `search_url`; a fallback result is returned
as-is; a final result gets `search_url` attached — via dict assignment,
whose `TypeError` on a non-dict parse lands in the same `except` shape; a
falsy final result (e.g. a parsed empty object) fails the `if final_result:`
test and is reported as iteration exhaustion. -/
def search_site_with_computer_use (site_id : List Char) (sp : SearchParams)
    (nav : Option (List Char)) (turns : Nat → ModelTurn) (fb : FallbackOutcome) :
    Json :=
  let search_url := build_search_url site_id sp
  if search_url = [] then
    .obj [("jobs".data, .arr []),
          ("error".data, .str ("Unknown site: ".data ++ site_id))]
  else
    match nav with
    | some e =>
      .obj [("jobs".data, .arr []), ("error".data, .str e),
            ("search_url".data, .str search_url)]
    | none =>
      match runLoop turns fb 1 10 with
      | .fellBack j => j
      | .finished j =>
        if pyFalsy j then
          .obj [("jobs".data, .arr []),
                ("error".data, .str "Max iterations reached".data),
                ("search_url".data, .str search_url)]
        else
          match jsonSetKey j "search_url".data (.str search_url) with
          | .ok j2 => j2
          | .error m =>
            .obj [("jobs".data, .arr []), ("error".data, .str m.data),
                  ("search_url".data, .str search_url)]
      | .exhausted =>
        .obj [("jobs".data, .arr []),
              ("error".data, .str "Max iterations reached".data),
              ("search_url".data, .str search_url)]

/-! ### Session orchestration (`process_import`, lines 754-904)

The store's session and site-result records are the state of interest; the
up-front credential/session-loading guards (lines 762-808) happen before
the loop the claims are about and are elided.  Per-site outcomes abstract
the engine+writer invocation inside the `try` of lines 833-868: `ok` bears
the engine result's jobs count and error field and the writer's counters;
`exn` is an exception escaping to the `except` of lines 870-881.  A
pre-created SiteResult's counters start at zero (the records are created
externally before the worker picks the session up); the failure update
touches only status, error and timestamp, so an `exn` site keeps those
zeros. -/

/-- Per-site outcome of the `try` block. -/
inductive SiteOutcome where
  | ok (jobsFound : Nat) (error : Option (List Char)) (imported duplicates : Nat)
  | exn (msg : List Char)

/-- Final state of one `import_site_results` record. -/
structure SiteFinal where
  site_id : List Char
  status : List Char
  search_url : List Char
  jobs_found : Nat
  jobs_imported : Nat
  duplicates_skipped : Nat
  error_message : Option (List Char)

/-- Final state of the `import_sessions` record. -/
structure SessionFinal where
  status : List Char
  total_jobs_found : Nat
  total_jobs_imported : Nat
  total_duplicates_skipped : Nat
  error_message : Option (List Char)

/-- One site's record updates over the whole loop body (lines 816-881). -/
def processSite (sp : SearchParams) (site : List Char × SiteOutcome) : SiteFinal :=
  match site.2 with
  | .ok found err imp dup =>
    { site_id := site.1
      status := if err.isSome then "failed".data else "completed".data
      search_url := build_search_url site.1 sp
      jobs_found := found
      jobs_imported := imp
      duplicates_skipped := dup
      error_message := err }
  | .exn msg =>
    { site_id := site.1
      status := "failed".data
      search_url := build_search_url site.1 sp
      jobs_found := 0
      jobs_imported := 0
      duplicates_skipped := 0
      error_message := some msg }

/-- The session-level error entry a site contributes, prefixed with its
site id as in `errors.append(f"{site_id}: {...}")`. -/
def siteError (site : List Char × SiteOutcome) : Option (List Char) :=
  match site.2 with
  | .ok _ (some e) _ _ => some (site.1 ++ ':' :: ' ' :: e)
  | .ok _ none _ _ => none
  | .exn m => some (site.1 ++ ':' :: ' ' :: m)

/-- The loop of lines 816-881, threading the totals and error list. -/
def processLoop (sp : SearchParams) :
    List (List Char × SiteOutcome) → Nat → Nat → Nat → List (List Char) →
    List SiteFinal × Nat × Nat × Nat × List (List Char)
  | [], f, i, d, errs => ([], f, i, d, errs)
  | site :: rest, f, i, d, errs =>
    let fin := processSite sp site
    let next :=
      match site.2 with
      | .ok found err imp dup =>
        (f + found, i + imp, d + dup,
         errs ++ match err with
           | some e => [site.1 ++ ':' :: ' ' :: e]
           | none => [])
      | .exn m => (f, i, d, errs ++ [site.1 ++ ':' :: ' ' :: m])
    let r := processLoop sp rest next.1 next.2.1 next.2.2.1 next.2.2.2
    (fin :: r.1, r.2)

/-- `process_import` from the start of the site loop to the final session
update (lines 816-894): process every site, then mark the session
`completed` with the aggregate totals and the semicolon-joined error list
(absent when no errors). -/
def process_import (sp : SearchParams) (sites : List (List Char × SiteOutcome)) :
    SessionFinal × List SiteFinal :=
  let r := processLoop sp sites 0 0 0 []
  ({ status := "completed".data
     total_jobs_found := r.2.1
     total_jobs_imported := r.2.2.1
     total_duplicates_skipped := r.2.2.2.1
     error_message :=
       if r.2.2.2.2.isEmpty then none
       else some (joinWith (';' :: ' ' :: []) r.2.2.2.2) },
   r.1)

/-! ## Claim theorems -/

/-- Helper: an empty input has no extractable numbers. -/
theorem findNumbers_cleanSalary_nil : findNumbers (cleanSalary []) = [] := rfl

/-- C2 (counterexample): `parse_salary` on a salary string whose two
extracted numbers are in descending order returns them in extraction order,
so the claimed `min ≤ max` fails: "$150,000 - $120,000/year" yields
`(150000, 120000)` with `150000 > 120000`, even though the string has two
extractable numbers. -/
theorem parse_salary_descending_pair :
    (findNumbers (cleanSalary "$150,000 - $120,000/year".data)).length ≥ 2 ∧
    parse_salary "$150,000 - $120,000/year".data = (some 150000, some 120000) ∧
    ¬(150000 ≤ 120000) :=
  ⟨by decide, by decide, by decide⟩

/-- C2 (amended): for every salary string with two or more extractable
numbers, the returned pair satisfies `min ≤ max` provided the first
extracted number is at most the second (the source keeps extraction order
and scales either both values or neither, so order is preserved). -/
theorem parse_salary_pair_ordered (s : List Char) (n1 n2 : List Char × List Char)
    (rest : List (List Char × List Char))
    (h : findNumbers (cleanSalary s) = n1 :: n2 :: rest)
    (hle : tokenValue n1 ≤ tokenValue n2) :
    ∃ a b, parse_salary s = (some a, some b) ∧ a ≤ b := by
  have hs : s ≠ [] := by
    intro he
    rw [he, findNumbers_cleanSalary_nil] at h
    exact List.noConfusion h
  have hps : parse_salary s =
      if tokenValue n1 < 500 then (some (tokenValue n1 * 2080), some (tokenValue n2 * 2080))
      else (some (tokenValue n1), some (tokenValue n2)) := by
    unfold parse_salary
    rw [if_neg hs, h]
  by_cases h5 : tokenValue n1 < 500
  · exact ⟨_, _, by rw [hps, if_pos h5], Nat.mul_le_mul_right 2080 hle⟩
  · exact ⟨_, _, by rw [hps, if_neg h5], hle⟩

/-- C2 (witness): the amended theorem applies to "$100 - $200". -/
theorem parse_salary_pair_ordered_witness :
    ∃ a b, parse_salary "$100 - $200".data = (some a, some b) ∧ a ≤ b :=
  parse_salary_pair_ordered "$100 - $200".data ("100".data, []) ("200".data, []) []
    (by decide) (by decide)

/-- C5 (counterexample): annualization is not applied independently: in
"$100 - $600" the max value 600 is at least 500, yet because the min value
100 is below 500 the source multiplies both, returning
`(208000, 1248000)` — the 600 was not left unchanged. -/
theorem parse_salary_scales_large_max :
    parse_salary "$100 - $600".data = (some 208000, some 1248000) ∧
    (1248000 : Nat) ≠ 600 :=
  ⟨by decide, by decide⟩

/-- C5 (amended): for a salary string with two or more extracted numbers,
whether the 2080 annualization multiplier is applied is decided solely by
the first extracted value being below 500, and it is then applied to both
values together: a second value of 500 or more is still scaled when the
first is below 500, and a second value below 500 is left unscaled when the
first is at least 500.  (For a single extracted number the source scales it
exactly when it is below 500.) -/
theorem parse_salary_scaling_decided_by_first (s : List Char)
    (n1 n2 : List Char × List Char) (rest : List (List Char × List Char))
    (h : findNumbers (cleanSalary s) = n1 :: n2 :: rest) :
    (tokenValue n1 < 500 →
      parse_salary s = (some (tokenValue n1 * 2080), some (tokenValue n2 * 2080))) ∧
    (¬ tokenValue n1 < 500 →
      parse_salary s = (some (tokenValue n1), some (tokenValue n2))) := by
  have hs : s ≠ [] := by
    intro he
    rw [he, findNumbers_cleanSalary_nil] at h
    exact List.noConfusion h
  have hps : parse_salary s =
      if tokenValue n1 < 500 then (some (tokenValue n1 * 2080), some (tokenValue n2 * 2080))
      else (some (tokenValue n1), some (tokenValue n2)) := by
    unfold parse_salary
    rw [if_neg hs, h]
  constructor
  · intro h5
    rw [hps, if_pos h5]
  · intro h5
    rw [hps, if_neg h5]

/-- C5 (witness): the amended theorem applied to "$100 - $600" gives both
values scaled, and to "$600 - $100" gives both unscaled. -/
theorem parse_salary_scaling_decided_by_first_witness :
    parse_salary "$100 - $600".data = (some (100 * 2080), some (600 * 2080)) ∧
    parse_salary "$600 - $100".data = (some 600, some 100) :=
  ⟨(parse_salary_scaling_decided_by_first "$100 - $600".data
      ("100".data, []) ("600".data, []) [] (by decide)).1 (by decide),
   (parse_salary_scaling_decided_by_first "$600 - $100".data
      ("600".data, []) ("100".data, []) [] (by decide)).2 (by decide)⟩

/-- C10: in `parse_posted_date`, when the relative "<N> <unit> ago" pattern
does not match the lowercased input, the checks are substring containment
tests applied in cascade: any input containing "today" or "just posted"
anywhere returns the current instant; otherwise any input containing
"yesterday" returns the current instant minus one day; every other input
(the empty string included) returns absent. -/
theorem parse_posted_date_substring_cascade (now : Int) (s : List Char)
    (hrel : findRelMatch (toLowerL s) = none) :
    ((containsSub (toLowerL s) "today".data ∨
        containsSub (toLowerL s) "just posted".data) →
      parse_posted_date now s = some now) ∧
    (¬(containsSub (toLowerL s) "today".data ∨
        containsSub (toLowerL s) "just posted".data) →
      containsSub (toLowerL s) "yesterday".data →
      parse_posted_date now s = some (now - 86400)) ∧
    (¬(containsSub (toLowerL s) "today".data ∨
        containsSub (toLowerL s) "just posted".data) →
      ¬ containsSub (toLowerL s) "yesterday".data →
      parse_posted_date now s = none) := by
  by_cases hs : s = []
  · subst hs
    refine ⟨?_, ?_, ?_⟩ <;> simp [parse_posted_date, toLowerL, containsSub, findSub, startsWith]
  · have hps : parse_posted_date now s =
        if containsSub (toLowerL s) "today".data || containsSub (toLowerL s) "just posted".data
        then some now
        else if containsSub (toLowerL s) "yesterday".data then some (now - 86400)
        else none := by
      unfold parse_posted_date
      rw [if_neg hs]
      simp only [hrel]
    refine ⟨?_, ?_, ?_⟩
    · intro h
      rw [hps, if_pos (by simpa using h)]
    · intro h hy
      rw [hps, if_neg (by simpa using h), if_pos hy]
    · intro h hy
      rw [hps, if_neg (by simpa using h), if_neg (by simpa using hy)]

/-- C10 (witness): "It was updated TODAY, folks" contains "today" after
lowercasing without matching the relative pattern, so the current instant is
returned; "and yesterday?" yields the instant minus one day. -/
theorem parse_posted_date_substring_cascade_witness :
    parse_posted_date 1000 "It was updated TODAY, folks".data = some 1000 ∧
    parse_posted_date 1000 "and yesterday?".data = some (1000 - 86400) :=
  ⟨(parse_posted_date_substring_cascade 1000 "It was updated TODAY, folks".data
      (by decide)).1 (Or.inl (by decide)),
   (parse_posted_date_substring_cascade 1000 "and yesterday?".data
      (by decide)).2.1 (by decide) (by decide)⟩

/-- C4 (counterexample): stage (2) of `parse_claude_response` is not "the
first brace-delimited substring": the regex is greedy, spanning from the
first opening brace to the last closing brace.  On
`pre {"a": 1} and {"b": 2} post` the greedy span is not valid JSON, so the
source returns the failure object, while the spec's reading (the first
brace-delimited substring, which parses to `{"a": 1}`) returns that object:
the two functions disagree at this input. -/
theorem parse_claude_response_greedy_not_first :
    parse_claude_response "pre \x7b\"a\": 1\x7d and \x7b\"b\": 2\x7d post".data
      = failedParseObj ∧
    parse_claude_response_spec "pre \x7b\"a\": 1\x7d and \x7b\"b\": 2\x7d post".data
      = .obj [("a".data, .num 1)] ∧
    jlookup (parse_claude_response "pre \x7b\"a\": 1\x7d and \x7b\"b\": 2\x7d post".data)
      "a".data = none ∧
    jlookup (parse_claude_response_spec "pre \x7b\"a\": 1\x7d and \x7b\"b\": 2\x7d post".data)
      "a".data = some (.num 1) :=
  ⟨rfl, rfl, rfl, rfl⟩

/-- C4 (amended): for every input text, `parse_claude_response` first tries
to JSON-parse the contents of the first fenced code block labeled json;
failing that (no fence, or its contents unparseable) it JSON-parses the
substring of the raw text spanning from the first opening brace to the last
closing brace (the greedy match — not the first brace-delimited substring);
if both attempts fail it returns exactly
`{jobs: [], error: "Failed to parse response"}`.  It never raises: the
result is always one of these three shapes. -/
theorem parse_claude_response_cascade (text : List Char) :
    (∃ c j, extractFenced text = some c ∧ jsonLoads c = some j ∧
      parse_claude_response text = j) ∨
    ((extractFenced text).bind jsonLoads = none ∧
      ∃ b j, braceSpan text = some b ∧ jsonLoads b = some j ∧
        parse_claude_response text = j) ∨
    ((extractFenced text).bind jsonLoads = none ∧
      (braceSpan text).bind jsonLoads = none ∧
      parse_claude_response text = failedParseObj) := by
  unfold parse_claude_response
  cases h1 : (extractFenced text).bind jsonLoads with
  | some j =>
    obtain ⟨c, hc, hj⟩ := Option.bind_eq_some.mp h1
    exact Or.inl ⟨c, j, hc, hj, rfl⟩
  | none =>
    cases h2 : (braceSpan text).bind jsonLoads with
    | some j =>
      obtain ⟨b, hb, hj⟩ := Option.bind_eq_some.mp h2
      exact Or.inr (Or.inl ⟨rfl, b, j, hb, hj, rfl⟩)
    | none =>
      exact Or.inr (Or.inr ⟨rfl, rfl, rfl⟩)

/-- C7 (counterexample): a successfully parsed model response is returned
verbatim, so the result need not contain a `jobs` key at all: a fenced
`{"a": 1}` comes back as `{"a": 1}`, whose `jobs` lookup is absent. -/
theorem parse_claude_response_missing_jobs_key :
    parse_claude_response "```json\n\x7b\"a\": 1\x7d\n```".data
      = .obj [("a".data, .num 1)] ∧
    jlookup (parse_claude_response "```json\n\x7b\"a\": 1\x7d\n```".data)
      "jobs".data = none :=
  ⟨rfl, rfl⟩

/-- C7 (amended): only when both extraction attempts fail does the result
contain a guaranteed `jobs` key, and it is then the empty sequence; a
successful parse is returned unchanged, so its `jobs` key is whatever the
model's JSON contained (possibly absent). -/
theorem parse_claude_response_failure_has_jobs (text : List Char)
    (h1 : (extractFenced text).bind jsonLoads = none)
    (h2 : (braceSpan text).bind jsonLoads = none) :
    jlookup (parse_claude_response text) "jobs".data = some (.arr []) := by
  unfold parse_claude_response
  rw [h1, h2]
  rfl

/-- C7 (witness): non-JSON text has no extractable JSON, so the failure
object with its empty `jobs` sequence is returned. -/
theorem parse_claude_response_failure_has_jobs_witness :
    jlookup (parse_claude_response "no structured data here".data) "jobs".data
      = some (.arr []) :=
  parse_claude_response_failure_has_jobs "no structured data here".data rfl rfl

/-- Helper: the one-step unfolding of `save_jobs_to_database` on a
non-empty batch (definitional, stated once so claim proofs can rewrite a
single side of an equation). -/
theorem save_jobs_cons_eq (now : Int) (insFails : NormalizedJob → Bool)
    (sid src : List Char) (job : RawJob) (rest : List RawJob) (db : List Row)
    (imp dup : Nat) :
    save_jobs_to_database now insFails sid src (job :: rest) db imp dup =
      match normalize_job now job src sid with
      | .error e => .error e
      | .ok n =>
        if n.url.isEmpty || n.title.isEmpty then
          save_jobs_to_database now insFails sid src rest db imp dup
        else if db.any (fun r => r.url = n.url) then
          save_jobs_to_database now insFails sid src rest db imp (dup + 1)
        else if db.any (fun r => r.title = n.title ∧ r.company = n.company) then
          save_jobs_to_database now insFails sid src rest db imp (dup + 1)
        else if insFails n then
          save_jobs_to_database now insFails sid src rest db imp dup
        else
          save_jobs_to_database now insFails sid src rest
            (db ++ [{ url := n.url, title := n.title, company := n.company }])
            (imp + 1) dup := rfl

/-- C3: in `save_jobs_to_database`, a job whose normalized url or title is
empty is skipped — neither counter moves, the table is untouched, and the
batch continues with the remaining jobs; and a failing insert of an
otherwise new job (non-empty url/title, no url match, no title+company
match, insert oracle failing) is likewise skipped with neither counter
moving and the batch continuing.  Both conclusions equate the run on
`job :: rest` with the run on `rest` under the same counters and table. -/
theorem save_jobs_skip_and_insert_failure (now : Int)
    (insFails : NormalizedJob → Bool) (sid src : List Char) (job : RawJob)
    (rest : List RawJob) (db : List Row) (imp dup : Nat) (n : NormalizedJob)
    (hn : normalize_job now job src sid = .ok n) :
    ((n.url.isEmpty || n.title.isEmpty) = true →
      save_jobs_to_database now insFails sid src (job :: rest) db imp dup =
        save_jobs_to_database now insFails sid src rest db imp dup) ∧
    (n.url.isEmpty = false → n.title.isEmpty = false →
      db.any (fun r => r.url = n.url) = false →
      db.any (fun r => r.title = n.title ∧ r.company = n.company) = false →
      insFails n = true →
      save_jobs_to_database now insFails sid src (job :: rest) db imp dup =
        save_jobs_to_database now insFails sid src rest db imp dup) := by
  constructor
  · intro hempty
    rw [save_jobs_cons_eq, hn]
    simp only [hempty, if_true]
  · intro hu ht hdb1 hdb2 hf
    rw [save_jobs_cons_eq, hn]
    simp only [hu, ht, hdb1, hdb2, hf, Bool.or_self, Bool.false_eq_true, if_false, if_true]

/-- C3 (witness): the empty raw job normalizes to empty title and url and is
skipped; a well-formed job whose insert fails is skipped; in both cases the
one-job batch ends with both counters at zero and the table unchanged. -/
theorem save_jobs_skip_and_insert_failure_witness :
    save_jobs_to_database 0 (fun _ => false) "s".data "indeed".data
      [[]] [] 0 0 = .ok (0, 0, []) ∧
    save_jobs_to_database 0 (fun _ => true) "s".data "indeed".data
      [[("title".data, .str "Dev".data), ("url".data, .str "https://u".data)]]
      [] 0 0 = .ok (0, 0, []) := by
  constructor
  · rw [(save_jobs_skip_and_insert_failure 0 (fun _ => false) "s".data "indeed".data
      [] [] [] 0 0
      { title := [], company := [], description := .str [],
        salary_min := none, salary_max := none, currency := "USD".data,
        job_type := "full_time".data, timezone := some "global".data,
        tech_stack := [], experience_level := "any".data, url := [],
        source := "indeed".data, posted_date := none, fetched_at := 0,
        is_active := true } rfl).1 rfl]
    rfl
  · rw [(save_jobs_skip_and_insert_failure 0 (fun _ => true) "s".data "indeed".data
      [("title".data, .str "Dev".data), ("url".data, .str "https://u".data)]
      [] [] 0 0
      { title := "Dev".data, company := [], description := .str [],
        salary_min := none, salary_max := none, currency := "USD".data,
        job_type := "full_time".data, timezone := some "global".data,
        tech_stack := [], experience_level := "any".data, url := "https://u".data,
        source := "indeed".data, posted_date := none, fetched_at := 0,
        is_active := true } rfl).2 rfl rfl rfl rfl rfl]
    rfl

/-- Helper: a successful two-stage `Except` computation succeeds stagewise:
from `comp >>= step = .ok out`, recover the intermediate value. -/
theorem except_bind_ok {σ τ : Type} {comp : Except String σ}
    {step : σ → Except String τ} {out : τ} (hok : comp >>= step = .ok out) :
    ∃ mid, comp = .ok mid ∧ step mid = .ok out := by
  cases comp with
  | error msg => exact absurd hok (by simp [Bind.bind, Except.bind])
  | ok mid => exact ⟨mid, rfl, by simpa [Bind.bind, Except.bind] using hok⟩

/-- Helper: a successful slice is bounded by the requested length. -/
theorem pySliceStr_length {j : Json} {k : Nat} {s : List Char}
    (h : pySliceStr j k = .ok s) : s.length ≤ k := by
  cases j <;> simp [pySliceStr] at h
  rw [← h]
  simp [List.length_take]

/-- Helper: a normalized record's title, company and url are the slices the
source takes of the raw fields. -/
theorem normalize_fields_inv {now : Int} {job : RawJob} {src sid : List Char}
    {n : NormalizedJob} (hn : normalize_job now job src sid = .ok n) :
    (∃ t, pySliceStr (rawGet job "title".data (.str [])) 500 = .ok t ∧ n.title = t) ∧
    (∃ c, pySliceStr (rawGet job "company".data (.str [])) 255 = .ok c ∧ n.company = c) ∧
    (∃ u, pySliceStr (rawGet job "url".data (.str [])) 2000 = .ok u ∧ n.url = u) := by
  unfold normalize_job at hn
  obtain ⟨sal, hsal, hn⟩ := except_bind_ok hn
  obtain ⟨emp, hemp, hn⟩ := except_bind_ok hn
  obtain ⟨loc, hloc, hn⟩ := except_bind_ok hn
  obtain ⟨t, ht, hn⟩ := except_bind_ok hn
  obtain ⟨c, hc, hn⟩ := except_bind_ok hn
  obtain ⟨u, hu, hn⟩ := except_bind_ok hn
  obtain ⟨pd, hpd, hn⟩ := except_bind_ok hn
  have hrec : n =
      { title := t, company := c,
        description := (rawGet job "description_preview".data
          (rawGet job "description".data (.str []))),
        salary_min := sal.1, salary_max := sal.2, currency := "USD".data,
        job_type := ((lookupStr job_type_map
          (replaceAll [ ' '] [ '_'] (toLowerL emp))).getD "full_time".data),
        timezone := (if containsSub (toLowerL loc) "remote".data
          then some "global".data else none),
        tech_stack := [], experience_level := "any".data, url := u,
        source := src, posted_date := pd, fetched_at := now,
        is_active := true } := by
    simpa [pure, Except.pure] using hn.symm
  subst hrec
  exact ⟨⟨t, ht, rfl⟩, ⟨c, hc, rfl⟩, ⟨u, hu, rfl⟩⟩

/-- C6 (counterexample): the writer does not require a non-empty company: a
raw job with non-empty title and url but no company at all normalizes to an
empty company and is inserted, counting as imported.  The claim's "company
required non-empty for persistence" fails. -/
theorem save_persists_empty_company :
    save_jobs_to_database 0 (fun _ => false) "s".data "indeed".data
      [[("title".data, .str "Engineer".data), ("url".data, .str "https://x".data)]]
      [] 0 0
      = .ok (1, 0,
          [{ url := "https://x".data
             title := "Engineer".data
             company := [] }]) := rfl

/-- C6 (amended): normalization truncates title to at most 500 characters,
company to at most 255, and url to at most 2000; and a job is persisted only
when its normalized title and url are both non-empty — the company is not
checked and may be empty (every row the writer adds beyond the pre-existing
table has non-empty url and title). -/
theorem normalize_truncation_and_persistence_gate (now : Int)
    (insFails : NormalizedJob → Bool) (sid src : List Char) :
    (∀ job n, normalize_job now job src sid = .ok n →
      n.title.length ≤ 500 ∧ n.company.length ≤ 255 ∧ n.url.length ≤ 2000) ∧
    (∀ jobs db imp dup res,
      save_jobs_to_database now insFails sid src jobs db imp dup = .ok res →
      ∀ r ∈ res.2.2, r ∈ db ∨ (¬ r.url.isEmpty ∧ ¬ r.title.isEmpty)) := by
  constructor
  · intro job n hn
    obtain ⟨⟨t, ht, et⟩, ⟨c, hc, ec⟩, ⟨u, hu, eu⟩⟩ := normalize_fields_inv hn
    exact ⟨et ▸ pySliceStr_length ht, ec ▸ pySliceStr_length hc,
      eu ▸ pySliceStr_length hu⟩
  · intro jobs
    induction jobs with
    | nil =>
      intro db imp dup res h r hr
      simp only [save_jobs_to_database] at h
      cases h
      exact Or.inl hr
    | cons job rest ih =>
      intro db imp dup res h r hr
      rw [save_jobs_cons_eq] at h
      cases hn : normalize_job now job src sid with
      | error e => rw [hn] at h; exact Except.noConfusion h
      | ok n =>
        rw [hn] at h
        simp only [] at h
        by_cases h1 : (n.url.isEmpty || n.title.isEmpty) = true
        · rw [if_pos h1] at h
          exact ih db imp dup res h r hr
        · rw [if_neg h1] at h
          have hne : ¬ n.url.isEmpty ∧ ¬ n.title.isEmpty := by
            constructor <;> intro hx <;> apply h1 <;> simp [hx]
          by_cases h2 : (db.any fun r => r.url = n.url) = true
          · rw [if_pos h2] at h
            exact ih db imp (dup + 1) res h r hr
          · rw [if_neg h2] at h
            by_cases h3 : (db.any fun r => r.title = n.title ∧ r.company = n.company) = true
            · rw [if_pos h3] at h
              exact ih db imp (dup + 1) res h r hr
            · rw [if_neg h3] at h
              by_cases h4 : insFails n = true
              · rw [if_pos h4] at h
                exact ih db imp dup res h r hr
              · rw [if_neg h4] at h
                rcases ih _ _ _ res h r hr with hmem | hgood
                · rcases List.mem_append.mp hmem with hdb | hnew
                  · exact Or.inl hdb
                  · right
                    rw [List.mem_singleton.mp hnew]
                    exact hne
                · exact Or.inr hgood

/-- C6 (witness): a concrete job exercises both parts: its normalized record
respects all three bounds, and the one row the writer inserts (over an empty
table) has non-empty url and title. -/
theorem normalize_truncation_and_persistence_gate_witness :
    (({ title := "Engineer".data, company := [], description := .str [],
        salary_min := none, salary_max := none, currency := "USD".data,
        job_type := "full_time".data, timezone := some "global".data,
        tech_stack := [], experience_level := "any".data, url := "https://x".data,
        source := "indeed".data, posted_date := none, fetched_at := 0,
        is_active := true } : NormalizedJob).title.length ≤ 500) ∧
    (∀ r ∈ [({ url := "https://x".data
               title := "Engineer".data
               company := [] } : Row)], r ∈ ([] : List Row) ∨
        (¬ r.url.isEmpty ∧ ¬ r.title.isEmpty)) :=
  ⟨((normalize_truncation_and_persistence_gate 0 (fun _ => false) "s".data
      "indeed".data).1
      [("title".data, .str "Engineer".data), ("url".data, .str "https://x".data)]
      _ rfl).1,
   (normalize_truncation_and_persistence_gate 0 (fun _ => false) "s".data
      "indeed".data).2
      [[("title".data, .str "Engineer".data), ("url".data, .str "https://x".data)]]
      [] 0 0 _ rfl⟩

/-- Helper: a successful `List.lookup` returns a stored value. -/
theorem lookup_val_mem (job : List (List Char × Json)) (k : List Char) (v : Json)
    (h : List.lookup k job = some v) : ∃ k2, (k2, v) ∈ job := by
  induction job with
  | nil => simp [List.lookup] at h
  | cons p rest ih =>
    rcases p with ⟨k2, v2⟩
    simp only [List.lookup] at h
    cases hbe : k == k2 with
    | true =>
      rw [hbe] at h
      simp only [Option.some.injEq] at h
      exact ⟨k2, by simp [h]⟩
    | false =>
      rw [hbe] at h
      obtain ⟨k3, hm⟩ := ih h
      exact ⟨k3, List.mem_cons_of_mem _ hm⟩

/-- Helper: over a raw job whose stored values are all strings, every
`get`-with-string-default yields a string. -/
theorem rawGet_string {job : RawJob} (hstr : ∀ p ∈ job, ∃ s, p.2 = Json.str s)
    (k d : List Char) : ∃ s, rawGet job k (.str d) = .str s := by
  unfold rawGet
  cases hk : List.lookup k job with
  | none => exact ⟨d, rfl⟩
  | some v =>
    obtain ⟨k2, hm⟩ := lookup_val_mem job k v hk
    obtain ⟨s, hs⟩ := hstr (k2, v) hm
    exact ⟨s, hs⟩

/-- Helper: on a string the salary guard and parse agree with `parse_salary`
(an empty string is falsy and short-circuits to the same `(None, None)`). -/
theorem parse_salary_j_str (s : List Char) :
    parse_salary_j (.str s) = .ok (parse_salary s) := by
  cases s with
  | nil => rfl
  | cons c cs => rfl

/-- Helper: the posted-date analogue of `parse_salary_j_str`. -/
theorem parse_posted_date_j_str (now : Int) (s : List Char) :
    parse_posted_date_j now (.str s) = .ok (parse_posted_date now s) := by
  cases s with
  | nil => rfl
  | cons c cs => rfl

/-- C9 (counterexample): `normalize` is not total on raw job dicts: a raw
job whose salary field is the (truthy) number 120000 — a shape the model
genuinely emits — reaches `salary_str.replace` and raises
`AttributeError` instead of degrading to a default. -/
theorem normalize_job_raises_on_numeric_salary :
    normalize_job 0 [("salary".data, .num 120000)] "indeed".data "s".data
      = .error "AttributeError" := rfl

/-- C9 (amended): `normalize(rawJob, sourceSiteId)` returns a NormalizedJob
without raising for every raw job dictionary whose present field values are
strings — absent fields degrade to the documented safe defaults (empty
strings, absent salary/date, job_type full_time, experience_level "any",
currency USD, is_active true, and timezone "global" from the default
"Remote" location); a truthy non-string field value raises instead. -/
theorem normalize_job_total_on_strings (now : Int) (src sid : List Char) :
    (∀ job : RawJob, (∀ p ∈ job, ∃ s, p.2 = Json.str s) →
      ∃ n, normalize_job now job src sid = .ok n) ∧
    normalize_job now [] src sid = .ok
      { title := [], company := [], description := .str [],
        salary_min := none, salary_max := none, currency := "USD".data,
        job_type := "full_time".data, timezone := some "global".data,
        tech_stack := [], experience_level := "any".data, url := [],
        source := src, posted_date := none, fetched_at := now,
        is_active := true } := by
  constructor
  · intro job hstr
    obtain ⟨s1, e1⟩ := rawGet_string hstr "salary".data []
    obtain ⟨s2, e2⟩ := rawGet_string hstr "employment_type".data "full_time".data
    obtain ⟨s3, e3⟩ := rawGet_string hstr "location".data "Remote".data
    obtain ⟨s4, e4⟩ := rawGet_string hstr "title".data []
    obtain ⟨s5, e5⟩ := rawGet_string hstr "company".data []
    obtain ⟨s6, e6⟩ := rawGet_string hstr "url".data []
    obtain ⟨s7, e7⟩ := rawGet_string hstr "posted_date".data []
    unfold normalize_job
    rw [e1, e2, e3, e4, e5, e6, e7]
    simp only [parse_salary_j_str, parse_posted_date_j_str, pyStrOf, pySliceStr,
      Bind.bind, Except.bind, pure, Except.pure]
    exact ⟨_, rfl⟩
  · rfl

/-- C9 (witness): the amended theorem applies to a string-valued raw job. -/
theorem normalize_job_total_on_strings_witness :
    ∃ n, normalize_job 0 [("title".data, Json.str "Dev".data)] "dice".data "s".data
      = .ok n :=
  (normalize_job_total_on_strings 0 "dice".data "s".data).1
    [("title".data, Json.str "Dev".data)]
    (by
      intro p hp
      rw [List.mem_singleton] at hp
      subst hp
      exact ⟨_, rfl⟩)

/-- Helper: after a dict assignment the assigned key reads back. -/
theorem lookup_setAssoc (ms : List (List Char × Json)) (k : List Char) (v : Json) :
    List.lookup k (setAssoc ms k v) = some v := by
  induction ms with
  | nil => simp [setAssoc, List.lookup]
  | cons p rest ih =>
    rcases p with ⟨k2, v2⟩
    simp only [setAssoc]
    by_cases he : k2 = k
    · subst he
      simp [List.lookup]
    · rw [if_neg he]
      simp only [List.lookup]
      have hbe : (k == k2) = false := by
        rw [beq_eq_false_iff_ne]
        exact fun hh => he hh.symm
      rw [hbe]
      exact ih

/-- Helper: when no model call of the (bounded) loop fails, the loop ends
in a parsed final result or in exhaustion — never in the fallback. -/
theorem runLoop_no_apiError (turns : Nat → ModelTurn) (fb : FallbackOutcome) :
    ∀ (fuel iter : Nat),
      (∀ i, iter ≤ i → i < iter + fuel → ∀ m, turns i ≠ .apiError m) →
      (∃ j, runLoop turns fb iter fuel = .finished j) ∨
        runLoop turns fb iter fuel = .exhausted := by
  intro fuel
  induction fuel with
  | zero => intro iter h; exact Or.inr rfl
  | succ fuel ih =>
    intro iter h
    cases ht : turns iter with
    | apiError m => exact absurd ht (h iter (le_refl _) (by omega) m)
    | toolUse =>
      have hrec := ih (iter + 1) (fun i h1 h2 m => h i (by omega) (by omega) m)
      simpa [runLoop, ht] using hrec
    | finalText t =>
      exact Or.inl ⟨parse_claude_response t, by simp [runLoop, ht]⟩

/-- C8 (counterexample): an extraction-engine result does not always carry
`search_url`.  When the first model call fails, the fallback's result is
returned as-is and lacks the key; the unknown-site early return lacks it
too.  Both contradict "on every exit path". -/
theorem search_site_result_lacks_search_url :
    jlookup (search_site_with_computer_use "indeed".data ⟨[], none⟩ none
        (fun _ => .apiError "connection error".data) (.reply "nothing useful".data))
      "search_url".data = none ∧
    jlookup (search_site_with_computer_use "nosuch".data ⟨[], none⟩ none
        (fun _ => .toolUse) .noKey) "search_url".data = none :=
  ⟨rfl, rfl⟩

/-- C8 (amended): the engine attaches the resolved search URL under
`search_url` on the normal-completion, iteration-exhaustion and
caught-exception exit paths — that is, whenever the site is known and no
model-call failure diverts the run into the fallback.  The unknown-site
early return and every fallback-path result carry no `search_url` key. -/
theorem search_site_attaches_search_url (site_id : List Char) (sp : SearchParams)
    (nav : Option (List Char)) (turns : Nat → ModelTurn) (fb : FallbackOutcome)
    (hsite : ¬ build_search_url site_id sp = [])
    (hapi : ∀ i, 1 ≤ i → i < 11 → ∀ m, turns i ≠ .apiError m) :
    jlookup (search_site_with_computer_use site_id sp nav turns fb)
      "search_url".data = some (.str (build_search_url site_id sp)) := by
  simp only [search_site_with_computer_use]
  rw [if_neg hsite]
  cases nav with
  | some e => rfl
  | none =>
    simp only []
    rcases runLoop_no_apiError turns fb 10 1 (fun i h1 h2 m => hapi i h1 (by omega) m)
      with ⟨j, hj⟩ | hj
    · rw [hj]
      simp only []
      by_cases hf : pyFalsy j = true
      · rw [if_pos hf]
        rfl
      · rw [if_neg hf]
        cases j with
        | obj ms =>
          simpa [jsonSetKey, jlookup] using
            lookup_setAssoc ms "search_url".data (.str (build_search_url site_id sp))
        | null => rfl
        | bool b => rfl
        | num n => rfl
        | numf l => rfl
        | str s => rfl
        | arr xs => rfl
    · rw [hj]
      rfl

/-- C8 (witness): a known site with a clean final model reply gets the
resolved URL attached. -/
theorem search_site_attaches_search_url_witness :
    jlookup (search_site_with_computer_use "dice".data ⟨[], none⟩ none
        (fun _ => .finalText "```json\n\x7b\"jobs\": []\x7d\n```".data) .noKey)
      "search_url".data
      = some (.str (build_search_url "dice".data ⟨[], none⟩)) :=
  search_site_attaches_search_url "dice".data ⟨[], none⟩ none
    (fun _ => .finalText "```json\n\x7b\"jobs\": []\x7d\n```".data) .noKey
    (by decide) (fun i h1 h2 m hEq => ModelTurn.noConfusion hEq)

/-- The per-site error entries a site list contributes, in loop order. -/
def sessionErrors (sites : List (List Char × SiteOutcome)) : List (List Char) :=
  sites.filterMap siteError

/-- Helper: closed form of the orchestrator loop — every site is processed
in order, the totals accumulate the recorded per-site counters, and the
error list accumulates the per-site entries. -/
theorem processLoop_spec (sp : SearchParams) :
    ∀ (sites : List (List Char × SiteOutcome)) (f i d : Nat) (errs : List (List Char)),
      processLoop sp sites f i d errs =
        (sites.map (processSite sp),
         f + ((sites.map (processSite sp)).map SiteFinal.jobs_found).sum,
         i + ((sites.map (processSite sp)).map SiteFinal.jobs_imported).sum,
         d + ((sites.map (processSite sp)).map SiteFinal.duplicates_skipped).sum,
         errs ++ sessionErrors sites) := by
  intro sites
  induction sites with
  | nil =>
    intro f i d errs
    simp [processLoop, sessionErrors]
  | cons site rest ih =>
    intro f i d errs
    rcases site with ⟨sid, o⟩
    cases o with
    | ok found err imp dup =>
      cases err with
      | none =>
        simp only [processLoop, ih, processSite, List.map_cons, List.map_map,
          List.sum_cons, sessionErrors, List.filterMap_cons, siteError,
          Prod.mk.injEq]
        refine ⟨?_, ?_, ?_, ?_, ?_⟩ <;> first | trivial | omega | simp
      | some e =>
        simp only [processLoop, ih, processSite, List.map_cons, List.map_map,
          List.sum_cons, sessionErrors, List.filterMap_cons, siteError,
          Prod.mk.injEq]
        refine ⟨?_, ?_, ?_, ?_, ?_⟩ <;> first | trivial | omega | simp
    | exn m =>
      simp only [processLoop, ih, processSite, List.map_cons, List.map_map,
        List.sum_cons, sessionErrors, List.filterMap_cons, siteError,
        Prod.mk.injEq]
      refine ⟨?_, ?_, ?_, ?_, ?_⟩ <;> first | trivial | omega | simp

/-- C1: once the orchestrator starts processing a session's sites, an
exception raised while processing one site is caught at the per-site level:
that SiteResult is marked failed with the exception's message (its counters
keeping their pre-created zeros), the loop continues so every site obtains a
final record in order, and the session is finally marked completed with
aggregate totals equal to the sums of the per-site found/imported/duplicate
counters and error_message equal to the "; "-joined per-site error entries,
absent when there were none. -/
theorem process_import_tolerates_site_exception (sp : SearchParams)
    (sites : List (List Char × SiteOutcome)) :
    (process_import sp sites).1.status = "completed".data ∧
    (process_import sp sites).2.length = sites.length ∧
    (∀ (idx : Nat) (sid msg : List Char), sites[idx]? = some (sid, .exn msg) →
      (process_import sp sites).2[idx]? = some
        { site_id := sid
          status := "failed".data
          search_url := build_search_url sid sp
          jobs_found := 0
          jobs_imported := 0
          duplicates_skipped := 0
          error_message := some msg }) ∧
    (process_import sp sites).1.total_jobs_found =
      ((process_import sp sites).2.map SiteFinal.jobs_found).sum ∧
    (process_import sp sites).1.total_jobs_imported =
      ((process_import sp sites).2.map SiteFinal.jobs_imported).sum ∧
    (process_import sp sites).1.total_duplicates_skipped =
      ((process_import sp sites).2.map SiteFinal.duplicates_skipped).sum ∧
    (process_import sp sites).1.error_message =
      (if sessionErrors sites = [] then none
       else some (joinWith (';' :: ' ' :: []) (sessionErrors sites))) := by
  unfold process_import
  rw [processLoop_spec]
  simp only []
  refine ⟨trivial, by simp, ?_, by simp, by simp, by simp, ?_⟩
  · intro idx sid msg hidx
    rw [List.getElem?_map, hidx]
    rfl
  · simp only [List.nil_append]
    by_cases he : sessionErrors sites = []
    · simp [he]
    · rw [if_neg he, if_neg (by simpa [List.isEmpty_iff] using he)]

/-- C1 (witness): the three-site scenario — a healthy site, a site whose
processing raises, and a site whose engine reports an error — ends with the
session completed, totals summing the recorded counters (5 found, 3
imported, 1 duplicate), the raising site's record failed with its message
and zero counters, and both error entries joined. -/
theorem process_import_tolerates_site_exception_witness :
    (process_import ⟨[], none⟩
        [("linkedin".data, .ok 2 none 1 1),
         ("indeed".data, .exn "boom".data),
         ("dice".data, .ok 3 (some "slow page".data) 2 0)]).1.status
      = "completed".data ∧
    (process_import ⟨[], none⟩
        [("linkedin".data, .ok 2 none 1 1),
         ("indeed".data, .exn "boom".data),
         ("dice".data, .ok 3 (some "slow page".data) 2 0)]).2[1]?
      = some
        { site_id := "indeed".data
          status := "failed".data
          search_url := build_search_url "indeed".data ⟨[], none⟩
          jobs_found := 0
          jobs_imported := 0
          duplicates_skipped := 0
          error_message := some "boom".data } :=
  ⟨(process_import_tolerates_site_exception ⟨[], none⟩
      [("linkedin".data, .ok 2 none 1 1),
       ("indeed".data, .exn "boom".data),
       ("dice".data, .ok 3 (some "slow page".data) 2 0)]).1,
   (process_import_tolerates_site_exception ⟨[], none⟩
      [("linkedin".data, .ok 2 none 1 1),
       ("indeed".data, .exn "boom".data),
       ("dice".data, .ok 3 (some "slow page".data) 2 0)]).2.2.1
      1 "indeed".data "boom".data rfl⟩

end RemoteFlow
